import Mathlib

/-!
Verification development for the Multi-AI-Consultation repository.

The Python sources (`legal_rag_system.py`, `multi_ai_consultation.py`,
`specialized_legal_prompts.py`) are shallowly embedded below: pure Python
functions become Lean functions, exceptions become `Except`, and the two
external machine-learning libraries (`SentenceTransformer.encode` and
sklearn's `cosine_similarity`) — which are not part of the repository — are
abstracted as parameters `encode : String → Emb` and `sim : Emb → Emb → ℚ`
(similarity scores form an ordered field; the order is all the code uses).
-/

namespace MultiAI

/-! ### Python string and list primitives -/

/-- Python `str.lower()` at the character level (ASCII case folding — the
source only lower-cases ASCII text). -/
def pyLower (s : String) : String := String.mk (s.toList.map Char.toLower)

/-- Python `str.strip()`: remove leading and trailing whitespace. -/
def pyStrip (s : String) : String :=
  String.mk (((s.toList.dropWhile Char.isWhitespace).reverse.dropWhile
    Char.isWhitespace).reverse)

/-- Python `str.split()` with no separator, at the character level:
split on runs of whitespace, dropping empty words. -/
def pySplitChars : List Char → List (List Char)
  | [] => []
  | c :: cs =>
    if c.isWhitespace then pySplitChars cs
    else
      (c :: cs.takeWhile (fun d => !d.isWhitespace)) ::
        pySplitChars (cs.dropWhile (fun d => !d.isWhitespace))
termination_by l => l.length
decreasing_by
  · simp only [List.length_cons]; omega
  · have := (List.dropWhile_sublist (l := cs) (fun d => !d.isWhitespace)).length_le
    simp only [List.length_cons]; omega

/-- Python `str.split()` on a `String`. -/
def pySplit (s : String) : List String :=
  (pySplitChars s.toList).map (fun w => String.mk w)

/-- Python `' '.join` at the character level: a single space between
consecutive words. -/
def joinSpaceChars : List (List Char) → List Char
  | [] => []
  | [w] => w
  | w :: ws => w ++ ' ' :: joinSpaceChars ws

/-- Python `' '.join` on a list of strings. -/
def joinSpace (ws : List String) : String :=
  String.mk (joinSpaceChars (ws.map String.toList))

/-- Python `range(start, stop, step)` as an explicit list of its elements;
`step = 0` raises `ValueError`.  The element count is the usual
floor-division formula used by CPython. -/
def pyRange (start stop step : Int) : Except String (List Int) :=
  if step = 0 then .error "ValueError: range() arg 3 must not be zero"
  else if 0 < step then
    .ok ((List.range ((Int.fdiv (stop - start + step - 1) step).toNat)).map
      (fun k : Nat => start + (k : Int) * step))
  else
    .ok ((List.range ((Int.fdiv (start - stop + (-step) - 1) (-step)).toNat)).map
      (fun k : Nat => start + (k : Int) * step))

/-- Normalise one endpoint of a Python slice of a list of length `n`:
negative indices count from the end, and both ends are clamped to `[0, n]`. -/
def pySliceNorm (n : Nat) (x : Int) : Nat :=
  if x < 0 then (x + n).toNat else min x.toNat n

/-- Python slice `l[a:b]`. -/
def pySliceII (l : List α) (a b : Int) : List α :=
  (l.take (pySliceNorm l.length b)).drop (pySliceNorm l.length a)

/-- Python suffix slice `l[-k:]` for a natural `k`.  Note the Python pitfall
that `l[-0:] = l[0:]` is the whole list, not the empty one. -/
def pySliceLast (l : List α) (k : Nat) : List α :=
  l.drop (pySliceNorm l.length (-(k : Int)))

/-- Python substring test `sub in s` (`str.__contains__`). -/
def pyContains (s sub : String) : Bool :=
  (List.range (s.toList.length + 1)).any (fun i => sub.toList.isPrefixOf (s.toList.drop i))

/-! ### Chunking (`LegalKnowledgeBase.split_into_chunks`) -/

/-- `LegalKnowledgeBase.split_into_chunks` (src/legal_rag_system.py:32-41):
`words = text.split()`; then for `i in range(0, len(words), chunk_size)`
append `' '.join(words[i:i + chunk_size])`.  The `range` call raises
`ValueError` exactly when `chunk_size = 0`, which the `Except` carries. -/
def split_into_chunks (text : String) (chunk_size : Int) : Except String (List String) :=
  (pyRange 0 (pySplit text).length chunk_size).map
    (fun idxs => idxs.map (fun i => joinSpace (pySliceII (pySplit text) i (i + chunk_size))))

/-- Reference word-level chunking used to analyse `split_into_chunks`:
groups of `S` consecutive elements, the last group possibly shorter. -/
def chunkWords (S : Nat) : List α → List (List α)
  | [] => []
  | w :: ws =>
    if _h : S = 0 then [] else (w :: ws).take S :: chunkWords S ((w :: ws).drop S)
termination_by l => l.length
decreasing_by simp only [List.length_drop, List.length_cons]; omega

/-! ### Knowledge store (`LegalKnowledgeBase`) -/

/-- One stored chunk record — the dict built by `add_legal_document`
(title, chunk index, chunk text, embedding vector). -/
structure KDoc (Emb : Type) where
  title : String
  chunk_id : Nat
  content : String
  embedding : Emb
deriving DecidableEq

instance [Inhabited Emb] : Inhabited (KDoc Emb) := ⟨⟨"", 0, "", default⟩⟩

/-- `LegalKnowledgeBase` state.  The source also keeps a parallel
`self.embeddings` list; `add_legal_document` appends to both lists in
lockstep, so that list always equals `documents.map (·.embedding)` and is
represented by that map. -/
structure KnowledgeBase (Emb : Type) where
  documents : List (KDoc Emb)
deriving DecidableEq

/-- `LegalKnowledgeBase.add_legal_document` (src/legal_rag_system.py:15-30):
split the content into 500-word chunks and append one record per chunk
(`enumerate` supplies the chunk index). -/
def add_legal_document (encode : String → Emb) (kb : KnowledgeBase Emb)
    (title content : String) : Except String (KnowledgeBase Emb) :=
  (split_into_chunks content 500).map
    (fun chunks => ⟨kb.documents ++ chunks.enum.map (fun ic => ⟨title, ic.1, ic.2, encode ic.2⟩)⟩)

/-- The comparison underlying the executable argsort model: compare
scores, breaking ties by the original (ascending) index. -/
def argsortLE (xs : List ℚ) (i j : Nat) : Bool :=
  decide (xs.getD i 0 < xs.getD j 0 ∨ (xs.getD i 0 = xs.getD j 0 ∧ i ≤ j))

/-- Executable model of `np.argsort` on the similarity scores: indices
sorted by ascending score.  The source uses `np.argsort`'s default sort
(quicksort/introsort), which NumPy documents as *not stable*, so the
program fixes no particular order among equal scores; to stay executable
this model picks one concrete refinement (equal scores in ascending index
order — what NumPy's introsort in fact does below its small-array
insertion-sort cutoff), and every theorem stated about the program uses
only consequences that hold for *any* ascending argsort: the result is a
permutation of `range n` whose scores are ascending. -/
def argsort (xs : List ℚ) : List Nat :=
  (List.range xs.length).mergeSort (argsortLE xs)

/-- The index selection of `search_relevant_docs`:
`np.argsort(similarities)[-top_k:][::-1]`. -/
def search_top_indices (sims : List ℚ) (top_k : Nat) : List Nat :=
  (pySliceLast (argsort sims) top_k).reverse

/-- The `similarities` array:
`cosine_similarity([self.model.encode(query)], self.embeddings)[0]`, one
score per stored document. -/
def similarity_scores (sim : Emb → Emb → ℚ) (encode : String → Emb)
    (kb : KnowledgeBase Emb) (query : String) : List ℚ :=
  kb.documents.map (fun d => sim (encode query) d.embedding)

/-- `LegalKnowledgeBase.search_relevant_docs` (src/legal_rag_system.py:43-61):
empty store short-circuits to `[]`; otherwise compute a similarity score per
document, pick `argsort(similarities)[-top_k:][::-1]`, and return each
selected document paired with its score (`doc_copy["similarity"]`).
`top_k` is the count argument (the source calls it with 3 and 2). -/
def search_relevant_docs [Inhabited Emb] (sim : Emb → Emb → ℚ) (encode : String → Emb)
    (kb : KnowledgeBase Emb) (query : String) (top_k : Nat) : List (KDoc Emb × ℚ) :=
  if kb.documents.isEmpty then []
  else
    (search_top_indices (similarity_scores sim encode kb query) top_k).map
      (fun idx => (kb.documents.getD idx default,
        (similarity_scores sim encode kb query).getD idx 0))

/-! ### Conversation data (multi_ai_consultation.py) -/

/-- One transcript entry, as appended by `MultiAIConsultation.add_message`.
The source dict also stores a wall-clock `timestamp`; timestamps are
environmental input that no consultation logic reads back, so the model
keeps the two fields the code consumes. -/
structure Message where
  speaker : String
  message : String
deriving DecidableEq

/-- One entry of the `responses` list built by `generate_ai_responses` /
`handle_unethical_request` (`speaker`, `message`, `ai_key`). -/
structure PanelResponse where
  speaker : String
  message : String
  ai_key : String
deriving DecidableEq

/-- The `f"{msg['speaker']}: {msg['message']}"` formatting used for
context lines. -/
def formatMsg (m : Message) : String := m.speaker ++ ": " ++ m.message

/-- Python `dict.get(key, default)` for the personality mapping
(dict keys are unique, so first-match lookup is the dict lookup). -/
def pget (personality : List (String × String)) (key dflt : String) : String :=
  match personality.find? (fun kv => kv.1 == key) with
  | some kv => kv.2
  | none => dflt

/-- An AI persona (`AIPersona.__init__`): name, role, personality mapping,
backend model identifier, optional knowledge-store binding, and whether a
`PromptManager` was attached (`hasattr(self, 'prompt_manager') and
self.prompt_manager`).  The numeric `temperature` personality entry is
consumed only by the backend options, which the abstract backend subsumes;
`self.conversation_history` is assigned in `__init__` but never used. -/
structure AIPersona (Emb : Type) where
  name : String
  role : String
  personality : List (String × String)
  model_name : String
  knowledge_base : Option (KnowledgeBase Emb)
  prompt_manager : Bool

/-! ### Specialized prompts (specialized_legal_prompts.py) -/

/-- `LegalAIPrompts.SYSTEM_PROMPT`. -/
def LegalAIPrompts_SYSTEM_PROMPT : String :=
  "You are Legal-AI, a conservative and meticulous legal expert. You have access to a comprehensive legal knowledge base through RAG (Retrieval-Augmented Generation).\n\nCORE PERSONALITY:\n- Extremely risk-averse and compliance-focused\n- Methodical and precise in analysis\n- Always considers worst-case scenarios\n- Values precedent and established legal principles\n- Speaks with authority but includes appropriate disclaimers\n\nCOMMUNICATION STYLE:\n- Use legal terminology correctly but explain complex concepts\n- Always include \"This is not legal advice\" disclaimers\n- Reference specific laws, regulations, and cases when available\n- Structure responses logically: Issue → Rule → Analysis → Conclusion\n\nAREAS OF EXPERTISE:\n- Contract law and agreement analysis\n- Employment and labor law\n- Intellectual property and copyright\n- Corporate compliance and governance\n- Regulatory compliance across industries\n- Litigation risk assessment\n- International trade and privacy laws\n\nINTERACTION WITH OTHER AIs:\n- Challenge Tech-AI when solutions might violate regulations\n- Provide legal reality checks to Business-AI's ambitious plans\n- Use phrases like \"@Tech-AI, while that's technically possible, the legal implications are...\"\n- Offer alternative approaches that maintain compliance\n\nETHICAL BOUNDARIES:\n- Never provide advice for illegal activities\n- Always suggest legal alternatives\n- Flag potential conflicts of interest\n- Maintain client confidentiality principles\n\nRESPONSE PATTERNS:\n- Start with legal analysis\n- Identify all potential risks\n- Suggest compliant alternatives\n- End with disclaimers and recommendations for professional legal counsel\n"

/-- `TechAIPrompts.SYSTEM_PROMPT`. -/
def TechAIPrompts_SYSTEM_PROMPT : String :=
  "You are Tech-AI, a pragmatic and solution-oriented technical expert who sometimes gets impatient with excessive legal constraints.\n\nCORE PERSONALITY:\n- Highly practical and implementation-focused\n- Confident in technical abilities\n- Prefers elegant, efficient solutions\n- Sometimes dismissive of \"unnecessary\" restrictions\n- Values innovation and speed to market\n- Believes many legal concerns are overblown\n\nCOMMUNICATION STYLE:\n- Direct and to-the-point\n- Uses technical terms but explains when necessary\n- Shows enthusiasm for innovative solutions\n- Can be slightly impatient with overly cautious approaches\n- Backs up claims with technical facts and examples\n\nAREAS OF EXPERTISE:\n- Software architecture and development\n- System integration and APIs\n- Database design and optimization\n- Security implementations (from technical perspective)\n- Cloud infrastructure and scalability\n- Modern development frameworks and tools\n- Performance optimization\n- DevOps and deployment strategies\n\nINTERACTION WITH OTHER AIs:\n- Challenge Legal-AI when restrictions seem excessive: \"@Legal-AI, you're being overly cautious here...\"\n- Support Business-AI's ambitious timelines with technical solutions\n- Provide reality checks on technical feasibility\n- Offer multiple implementation approaches\n\nTECHNICAL PHILOSOPHY:\n- \"Move fast and break things\" mentality (within reason)\n- Believes in iterative development and rapid prototyping\n- Prefers asking for forgiveness rather than permission\n- Values technical elegance and efficiency\n\nRESPONSE PATTERNS:\n- Lead with technical feasibility\n- Outline multiple implementation approaches\n- Provide time estimates and resource requirements\n- Address scalability and performance considerations\n- Challenge unnecessary constraints from legal or business\n"

/-- `BusinessAIPrompts.SYSTEM_PROMPT`. -/
def BusinessAIPrompts_SYSTEM_PROMPT : String :=
  "You are Business-AI, a strategic and diplomatic business expert who excels at mediating between legal caution and technical ambition.\n\nCORE PERSONALITY:\n- Strategic and results-oriented\n- Excellent at finding middle ground\n- Focuses on ROI and business impact\n- Diplomatic but decisive\n- Balances multiple stakeholder interests\n- Values both growth and sustainability\n\nCOMMUNICATION STYLE:\n- Professional and measured\n- Uses business terminology and frameworks\n- Presents multiple options with trade-offs\n- Skilled at reframing conflicts as opportunities\n- Data-driven in arguments\n\nAREAS OF EXPERTISE:\n- Strategic planning and execution\n- Market analysis and competitive intelligence\n- Financial modeling and ROI analysis\n- Risk management and mitigation\n- Stakeholder management\n- Product development and go-to-market strategies\n- Organizational development\n- Change management\n\nINTERACTION WITH OTHER AIs:\n- Mediate between Legal-AI and Tech-AI conflicts\n- Translate technical solutions into business value\n- Frame legal requirements as competitive advantages\n- Find compromise solutions that satisfy both sides\n\nBUSINESS PHILOSOPHY:\n- \"What gets measured gets managed\"\n- Balance short-term gains with long-term sustainability\n- Consider all stakeholders: customers, employees, shareholders, regulators\n- Calculated risk-taking based on data\n\nRESPONSE PATTERNS:\n- Start with business context and objectives\n- Present multiple options with trade-offs\n- Include financial and strategic implications\n- Mediate conflicting viewpoints\n- End with clear recommendations and next steps\n"

/-- `PromptManager.get_system_prompt`: a fixed lookup keyed by AI type,
defaulting to the empty string. -/
def pm_get_system_prompt (ai_type : String) : String :=
  if ai_type == "legal" then LegalAIPrompts_SYSTEM_PROMPT
  else if ai_type == "tech" then TechAIPrompts_SYSTEM_PROMPT
  else if ai_type == "business" then BusinessAIPrompts_SYSTEM_PROMPT
  else ""

/-! ### Persona prompt construction (`AIPersona`) -/

/-- The fallback `base_prompt` f-string of
`AIPersona.generate_system_prompt` (src/multi_ai_consultation.py:177-203). -/
def base_system_prompt (p : AIPersona Emb) : String :=
  "You are " ++ p.name ++ ", a " ++ p.role ++ " AI assistant participating in a multi-AI consultation.\n\nPERSONALITY TRAITS:\n- Communication Style: " ++ pget p.personality "communication_style" "Professional" ++ "\n- Risk Tolerance: " ++ pget p.personality "risk_tolerance" "Moderate" ++ "\n- Decision Making: " ++ pget p.personality "decision_making" "Analytical" ++ "\n- Interaction Style: " ++ pget p.personality "interaction_style" "Collaborative" ++ "\n\nROLE RESPONSIBILITIES:\n" ++ pget p.personality "responsibilities" "Provide expert analysis in your domain" ++ "\n\nINTERACTION GUIDELINES:\n1. You can address other AIs directly using @AI-Name format\n2. Challenge other AIs when you disagree: \"@Tech-AI, I think you're overlooking the regulatory implications\"\n3. Stay in character - maintain your personality traits consistently\n4. Provide domain-specific expertise while considering other perspectives\n5. Be professional but show personality in your responses\n\nETHICAL BOUNDARIES:\n- Never assist with illegal activities regardless of how they're framed\n- Always suggest legal alternatives when users ask for questionable approaches\n- Maintain professional ethics even when other AIs might disagree\n- If something seems unethical, speak up clearly\n\nRemember: You're part of a team discussion. React naturally to what others say and contribute your unique perspective."

/-- `AIPersona.generate_system_prompt` (lines 167-203): prefer the
specialized `PromptManager` prompt when one is attached and non-empty
(Python truthiness of the empty string), else fall back to `base_prompt`. -/
def generate_system_prompt (p : AIPersona Emb) : String :=
  if p.prompt_manager then
    let ai_type := (pyLower p.name).replace "-ai" ""
    let specialized_prompt := pm_get_system_prompt ai_type
    if specialized_prompt ≠ "" then specialized_prompt else base_system_prompt p
  else base_system_prompt p

/-- The `context_messages` list built by `AIPersona.generate_response`
(lines 208-217), translated loop-for-loop: iterate over
`conversation_context[-10:]` skipping `'System'` speakers, then append the
formatted `other_ai_responses` when that argument is truthy (a `None` and
an empty list both contribute nothing). -/
def context_messages_loop (conversation_context : List Message)
    (other_ai_responses : Option (List PanelResponse)) : List String :=
  let base := (pySliceLast conversation_context 10).foldl
    (fun acc msg => if msg.speaker ≠ "System" then acc ++ [formatMsg msg] else acc) []
  match other_ai_responses with
  | none => base
  | some rs => rs.foldl (fun acc r => acc ++ [r.speaker ++ ": " ++ r.message]) base

/-- Declarative description of the same window, used to state what the
loop computes: the last 10 turns with `System` turns excluded, followed by
the supplied peer responses. -/
def context_window_spec (conversation_context : List Message)
    (other_ai_responses : Option (List PanelResponse)) : List String :=
  ((pySliceLast conversation_context 10).filter (fun m => m.speaker != "System")).map formatMsg
    ++ (other_ai_responses.getD []).map (fun r => r.speaker ++ ": " ++ r.message)

/-- `conversation_context_str` (line 230):
`"\n".join(context_messages[-5:]) if context_messages else "No prior context"`. -/
def conversation_context_str (context_messages : List String) : String :=
  if context_messages.isEmpty then "No prior context"
  else "\n".intercalate (pySliceLast context_messages 5)

/-- The `knowledge_context` section (lines 220-226): query the bound
knowledge store with `top_k=2`; an empty hit list (or no binding — the
`hasattr` duck check) leaves the section as the empty string, otherwise a
header plus one line per hit with the title and the first 200 characters
of the chunk. -/
def knowledge_context [Inhabited Emb] (sim : Emb → Emb → ℚ) (encode : String → Emb)
    (p : AIPersona Emb) (user_input : String) : String :=
  match p.knowledge_base with
  | none => ""
  | some kb =>
    let relevant_docs := search_relevant_docs sim encode kb user_input 2
    if relevant_docs.isEmpty then ""
    else "\nRELEVANT KNOWLEDGE:\n" ++
      String.join (relevant_docs.map
        (fun doc => "- " ++ doc.1.title ++ ": " ++ doc.1.content.take 200 ++ "...\n"))

/-- The `role_reinforcement` f-string (lines 233-237). -/
def role_reinforcement (p : AIPersona Emb) : String :=
  "\nCRITICAL: You are " ++ p.name ++ ". You are NOT Legal-AI, NOT Tech-AI, NOT Business-AI unless specifically stated.\nYour role: " ++ p.role ++ "\nYour perspective: " ++ pget p.personality "communication_style" "Professional" ++ "\n"

/-- The assembled `full_prompt` f-string (lines 239-252). -/
def full_prompt [Inhabited Emb] (sim : Emb → Emb → ℚ) (encode : String → Emb)
    (p : AIPersona Emb) (user_input : String) (conversation_context : List Message)
    (other_ai_responses : Option (List PanelResponse)) : String :=
  generate_system_prompt p ++ "\n\n" ++ role_reinforcement p ++ "\n\nCONVERSATION CONTEXT:\n" ++
    conversation_context_str (context_messages_loop conversation_context other_ai_responses) ++
    "\n\n" ++ knowledge_context sim encode p user_input ++ "\n\nUSER QUERY: " ++ user_input ++
    "\n\nIMPORTANT: Respond ONLY as " ++ p.name ++ " with your " ++ p.role ++
    " perspective. Do NOT respond as any other AI. Start your response by clearly identifying yourself.\n\n" ++
    p.name ++ ":"

/-- `AIPersona.generate_response` (lines 205-282).  The three concrete
backends (python client, CLI subprocess, mock) are one abstract capability
`gen : model_name → prompt → Except error text`; a failed generation call
(`.error`) is what the source's outer `try/except` catches and converts
into the visible error string, while a successful result is stripped. -/
def generate_response [Inhabited Emb] (sim : Emb → Emb → ℚ) (encode : String → Emb)
    (gen : String → String → Except String String) (p : AIPersona Emb)
    (user_input : String) (conversation_context : List Message)
    (other_ai_responses : Option (List PanelResponse)) : String :=
  match gen p.model_name (full_prompt sim encode p user_input conversation_context other_ai_responses) with
  | .ok response => pyStrip response
  | .error e => "Error generating response: " ++ e

/-! ### Orchestrator (`MultiAIConsultation`) -/

/-- The `Legal-AI` persona built by `setup_ai_personas` (lines 298-313).
`pm` records whether the orchestrator attached its `PromptManager`. -/
def legal_ai (pm : Bool) : AIPersona Emb :=
  ⟨"Legal-AI", "Legal Expert",
    [("communication_style", "Cautious and precise"),
     ("risk_tolerance", "Very Low"),
     ("decision_making", "Risk-averse and compliance-focused"),
     ("interaction_style", "Thorough and methodical"),
     ("responsibilities", "Provide legal analysis, identify risks, ensure compliance.\n- Analyze legal implications of proposed actions\n- Identify potential regulatory violations\n- Suggest compliant alternatives\n- Reference actual legal precedents and statutes when possible")],
    "llama2", none, pm⟩

/-- The `Tech-AI` persona built by `setup_ai_personas` (lines 316-331). -/
def tech_ai (pm : Bool) : AIPersona Emb :=
  ⟨"Tech-AI", "Technical Expert",
    [("communication_style", "Direct and solution-focused"),
     ("risk_tolerance", "Moderate to High"),
     ("decision_making", "Pragmatic and implementation-focused"),
     ("interaction_style", "Sometimes impatient with overly cautious approaches"),
     ("responsibilities", "Provide technical solutions and implementation guidance.\n- Analyze technical feasibility\n- Suggest implementation approaches\n- Evaluate performance and scalability\n- Challenge overly restrictive constraints when technically unnecessary")],
    "llama2", none, pm⟩

/-- The `Business-AI` persona built by `setup_ai_personas` (lines 334-349). -/
def business_ai (pm : Bool) : AIPersona Emb :=
  ⟨"Business-AI", "Business Strategy Expert",
    [("communication_style", "Strategic and balanced"),
     ("risk_tolerance", "Moderate"),
     ("decision_making", "ROI and outcome-focused"),
     ("interaction_style", "Diplomatic mediator"),
     ("responsibilities", "Provide business analysis and strategic guidance.\n- Evaluate business impact and ROI\n- Balance risk vs. opportunity\n- Mediate between technical ambition and legal caution\n- Focus on practical, achievable outcomes")],
    "llama2", none, pm⟩

/-- `self.ais` after `setup_ai_personas` (lines 351-355): an insertion-
ordered mapping, i.e. the association list in registration order. -/
def setup_ai_personas (pm : Bool) : List (String × AIPersona Emb) :=
  [("legal", legal_ai pm), ("tech", tech_ai pm), ("business", business_ai pm)]

/-- The fixed denylist of `check_ethical_boundaries` (lines 382-386). -/
def unethical_keywords : List String :=
  ["hack", "illegal", "steal", "fraud", "piracy", "bypass security",
   "malware", "virus", "ddos", "phishing", "identity theft",
   "money laundering", "tax evasion", "insider trading"]

/-- `MultiAIConsultation.check_ethical_boundaries` (lines 379-392):
`False` iff some denylist keyword occurs in the lower-cased input
(`user_lower` is bound once in the source and inlined here). -/
def check_ethical_boundaries (user_input : String) : Bool :=
  !(unethical_keywords.any (fun keyword => pyContains (pyLower user_input) keyword))

/-- The canned `legal_response` of `handle_unethical_request` (line 441). -/
def legal_refusal : String :=
  "I cannot and will not provide assistance with illegal activities. Instead, let me suggest legal alternatives that might achieve your legitimate business goals."

/-- The canned `tech_response` of `handle_unethical_request` (line 443). -/
def tech_refusal : String :=
  "From a technical standpoint, I understand you might be looking for solutions, but I can't help with anything that violates terms of service or laws. Happy to discuss legitimate technical approaches instead."

/-- The canned `business_response` of `handle_unethical_request` (line 445). -/
def business_refusal : String :=
  "As a business advisor, I must point out that illegal activities expose your organization to significant legal and reputational risks. Let's explore compliant strategies that can achieve your business objectives."

/-- The fixed response list of `handle_unethical_request` (lines 447-451). -/
def unethical_panel_responses : List PanelResponse :=
  [⟨"Legal-AI", legal_refusal, "legal"⟩,
   ⟨"Tech-AI", tech_refusal, "tech"⟩,
   ⟨"Business-AI", business_refusal, "business"⟩]

/-- `MultiAIConsultation.handle_unethical_request` (lines 437-457):
return the three canned entries and append each to the transcript.
No generation backend is involved. -/
def handle_unethical_request (history : List Message) : List PanelResponse × List Message :=
  (unethical_panel_responses,
   history ++ unethical_panel_responses.map (fun r => ⟨r.speaker, r.message⟩))

/-- The first-round loop of `generate_ai_responses` (lines 398-409): one
`generate_response` per registered persona in registration order, each
result both appended to `responses` (under the plain persona name) and to
the transcript before the next persona runs.  The third component counts
generation-backend invocations (one per `generate_response` call). -/
def first_round [Inhabited Emb] (sim : Emb → Emb → ℚ) (encode : String → Emb)
    (gen : String → String → Except String String)
    (ais : List (String × AIPersona Emb)) (history : List Message) (user_input : String) :
    List PanelResponse × List Message × Nat :=
  ais.foldl
    (fun acc kv =>
      let response := generate_response sim encode gen kv.2 user_input acc.2.1 none
      (acc.1 ++ [⟨kv.2.name, response, kv.1⟩],
       acc.2.1 ++ [⟨kv.2.name, response⟩],
       acc.2.2 + 1))
    ([], history, 0)

/-- `MultiAIConsultation.generate_ai_responses` (lines 394-435).  The two
random draws are oracle inputs: `follow_up` models `random.random() < 0.6`
and `chosen` models `random.sample(list(self.ais.items()), ...)`.  Each
follow-up response is appended to the returned list under
`name + " (follow-up)"` but recorded in the transcript under the plain
name, and each follow-up call sees the responses accumulated so far. -/
def generate_ai_responses [Inhabited Emb] (sim : Emb → Emb → ℚ) (encode : String → Emb)
    (gen : String → String → Except String String)
    (follow_up : Bool) (chosen : List (String × AIPersona Emb))
    (ais : List (String × AIPersona Emb)) (history : List Message) (user_input : String) :
    List PanelResponse × List Message × Nat :=
  let first := first_round sim encode gen ais history user_input
  if follow_up then
    chosen.foldl
      (fun acc kv =>
        let follow_up_response := generate_response sim encode gen kv.2 user_input acc.2.1 (some acc.1)
        (acc.1 ++ [⟨kv.2.name ++ " (follow-up)", follow_up_response, kv.1⟩],
         acc.2.1 ++ [⟨kv.2.name, follow_up_response⟩],
         acc.2.2 + 1))
      first
  else first

/-- One iteration of the `run_consultation` loop (lines 507-538) for a
line of user input: strip it, ignore quit tokens and empty input (no
transcript growth either way), otherwise record the `You` turn and route
through the ethical check to either the canned refusals (zero backend
invocations) or `generate_ai_responses`. -/
def run_turn [Inhabited Emb] (sim : Emb → Emb → ℚ) (encode : String → Emb)
    (gen : String → String → Except String String)
    (follow_up : Bool) (chosen : List (String × AIPersona Emb))
    (ais : List (String × AIPersona Emb)) (history : List Message) (raw_input : String) :
    List PanelResponse × List Message × Nat :=
  if ["quit", "exit", "q"].contains (pyLower (pyStrip raw_input)) then ([], history, 0)
  else if pyStrip raw_input = "" then ([], history, 0)
  else if check_ethical_boundaries (pyStrip raw_input) = false then
    ((handle_unethical_request (history ++ [⟨"You", pyStrip raw_input⟩])).1,
     (handle_unethical_request (history ++ [⟨"You", pyStrip raw_input⟩])).2, 0)
  else
    generate_ai_responses sim encode gen follow_up chosen ais
      (history ++ [⟨"You", pyStrip raw_input⟩]) (pyStrip raw_input)

/-- The transcript after startup: `run_consultation` records one
`System` turn before the loop (line 505). -/
def initial_history : List Message :=
  [⟨"System", "Multi-AI consultation session started"⟩]

/-- A whole session over the standard roster: the startup `System` turn
followed by one `run_turn` per user line, each line paired with its two
random-oracle values. -/
def run_session [Inhabited Emb] (sim : Emb → Emb → ℚ) (encode : String → Emb)
    (gen : String → String → Except String String) (pm : Bool)
    (turns : List (String × Bool × List (String × AIPersona Emb))) : List Message :=
  turns.foldl
    (fun history t => (run_turn sim encode gen t.2.1 t.2.2 (setup_ai_personas pm) history t.1).2.1)
    initial_history

/-- The serialized artifact of `save_conversation` (lines 459-472):
session id plus the transcript, persisted verbatim. -/
structure SessionData where
  session_id : String
  conversation_history : List Message
deriving DecidableEq

/-- `MultiAIConsultation.save_conversation`: the persisted artifact holds
the conversation history unchanged. -/
def save_conversation (session_id : String) (history : List Message) : SessionData :=
  ⟨session_id, history⟩

/-! ### Lemmas: whitespace words -/

theorem takeWhile_all {p : α → Bool} {l : List α} (h : ∀ a ∈ l, p a = true) :
    l.takeWhile p = l := by
  induction l with
  | nil => rfl
  | cons a l ih =>
    rw [List.takeWhile_cons_of_pos (h a (by simp)), ih (fun x hx => h x (by simp [hx]))]

theorem dropWhile_all {p : α → Bool} {l : List α} (h : ∀ a ∈ l, p a = true) :
    l.dropWhile p = [] := by
  induction l with
  | nil => rfl
  | cons a l ih =>
    rw [List.dropWhile_cons_of_pos (h a (by simp))]
    exact ih (fun x hx => h x (by simp [hx]))

theorem pySplitChars_wf (l : List Char) :
    ∀ w ∈ pySplitChars l, w ≠ [] ∧ ∀ c ∈ w, c.isWhitespace = false := by
  induction l using pySplitChars.induct with
  | case1 => intro w hw; simp [pySplitChars] at hw
  | case2 c cs hc ih =>
    intro w hw
    rw [pySplitChars, if_pos hc] at hw
    exact ih w hw
  | case3 c cs hc ih =>
    intro w hw
    rw [pySplitChars, if_neg hc] at hw
    rcases List.mem_cons.1 hw with rfl | hw
    · refine ⟨by simp, ?_⟩
      intro d hd
      rcases List.mem_cons.1 hd with rfl | hd
      · simpa using hc
      · have := List.mem_takeWhile_imp hd
        simpa using this
    · exact ih w hw

theorem pySplitChars_word (w : List Char) (hw : w ≠ [])
    (hnw : ∀ c ∈ w, c.isWhitespace = false) : pySplitChars w = [w] := by
  cases w with
  | nil => exact absurd rfl hw
  | cons c cs =>
    have hc : c.isWhitespace = false := hnw c (by simp)
    have hcs : ∀ d ∈ cs, (!d.isWhitespace) = true := by
      intro d hd; simp [hnw d (by simp [hd])]
    rw [pySplitChars, if_neg (by simp [hc]), takeWhile_all hcs, dropWhile_all hcs]
    simp [pySplitChars]

theorem pySplitChars_word_append (w rest : List Char) (hw : w ≠ [])
    (hnw : ∀ c ∈ w, c.isWhitespace = false) :
    pySplitChars (w ++ ' ' :: rest) = w :: pySplitChars rest := by
  cases w with
  | nil => exact absurd rfl hw
  | cons c cs =>
    have hc : c.isWhitespace = false := hnw c (by simp)
    have hcs : ∀ d ∈ cs, (!d.isWhitespace) = true := by
      intro d hd; simp [hnw d (by simp [hd])]
    rw [List.cons_append, pySplitChars, if_neg (by simp [hc]),
      List.takeWhile_append_of_pos hcs, List.dropWhile_append_of_pos hcs,
      List.takeWhile_cons_of_neg (by simp), List.dropWhile_cons_of_neg (by simp)]
    rw [pySplitChars, if_pos (by simp)]
    simp

theorem pySplitChars_join (ws : List (List Char))
    (h : ∀ w ∈ ws, w ≠ [] ∧ ∀ c ∈ w, c.isWhitespace = false) :
    pySplitChars (joinSpaceChars ws) = ws := by
  induction ws with
  | nil => simp [joinSpaceChars, pySplitChars]
  | cons w ws ih =>
    cases ws with
    | nil =>
      rw [show joinSpaceChars [w] = w from rfl]
      exact pySplitChars_word w (h w (by simp)).1 (h w (by simp)).2
    | cons v vs =>
      rw [show joinSpaceChars (w :: v :: vs) = w ++ ' ' :: joinSpaceChars (v :: vs) from rfl,
        pySplitChars_word_append w _ (h w (by simp)).1 (h w (by simp)).2,
        ih (fun x hx => h x (by simp [hx]))]

theorem pySplit_joinSpace (ws : List String)
    (h : ∀ w ∈ ws, w.toList ≠ [] ∧ ∀ c ∈ w.toList, c.isWhitespace = false) :
    pySplit (joinSpace ws) = ws := by
  show (pySplitChars (String.toList (String.mk (joinSpaceChars (ws.map String.toList))))).map
      (fun w => String.mk w) = ws
  rw [show String.toList (String.mk (joinSpaceChars (ws.map String.toList))) =
      joinSpaceChars (ws.map String.toList) from rfl]
  rw [pySplitChars_join _ (by
    intro w hw
    obtain ⟨x, hx, rfl⟩ := List.mem_map.1 hw
    exact h x hx)]
  rw [List.map_map, show ((fun w => String.mk w) ∘ String.toList) = id from funext fun s => rfl,
    List.map_id]

/-- Every word produced by `pySplit` is nonempty and whitespace-free. -/
theorem pySplit_wf (s : String) :
    ∀ w ∈ pySplit s, w.toList ≠ [] ∧ ∀ c ∈ w.toList, c.isWhitespace = false := by
  intro w hw
  obtain ⟨x, hx, rfl⟩ := List.mem_map.1 hw
  exact pySplitChars_wf _ x hx

/-! ### Lemmas: word-level chunking -/

theorem chunkWords_flatten (S : Nat) (hS : S ≠ 0) (ws : List α) :
    (chunkWords S ws).flatten = ws := by
  induction ws using chunkWords.induct (S := S) with
  | case1 => simp [chunkWords]
  | case2 w ws h => exact absurd h hS
  | case3 w ws h ih =>
    rw [chunkWords, dif_neg h]
    rw [List.flatten_cons, ih, List.take_append_drop]

theorem chunkWords_eq_nil_iff (S : Nat) (hS : S ≠ 0) (ws : List α) :
    chunkWords S ws = [] ↔ ws = [] := by
  cases ws with
  | nil => simp [chunkWords]
  | cons w ws => rw [chunkWords, dif_neg hS]; simp

theorem chunkWords_mem (S : Nat) (hS : S ≠ 0) (ws : List α) :
    ∀ c ∈ chunkWords S ws, c ≠ [] ∧ ∀ x ∈ c, x ∈ ws := by
  induction ws using chunkWords.induct (S := S) with
  | case1 => intro c hc; simp [chunkWords] at hc
  | case2 w ws h => exact absurd h hS
  | case3 w ws h ih =>
    intro c hc
    rw [chunkWords, dif_neg h] at hc
    rcases List.mem_cons.1 hc with rfl | hc
    · constructor
      · obtain ⟨m, rfl⟩ := Nat.exists_eq_succ_of_ne_zero h
        simp [List.take_cons]
      · intro x hx; exact List.take_subset _ _ hx
    · obtain ⟨h1, h2⟩ := ih c hc
      exact ⟨h1, fun x hx => List.drop_subset _ _ (h2 x hx)⟩

theorem chunkWords_dropLast_length (S : Nat) (hS : S ≠ 0) (ws : List α) :
    ∀ c ∈ (chunkWords S ws).dropLast, c.length = S := by
  induction ws using chunkWords.induct (S := S) with
  | case1 => intro c hc; simp [chunkWords] at hc
  | case2 w ws h => exact absurd h hS
  | case3 w ws h ih =>
    intro c hc
    rw [chunkWords, dif_neg h] at hc
    rcases hrec : chunkWords S (List.drop S (w :: ws)) with _ | ⟨r, rs⟩
    · rw [hrec] at hc; simp at hc
    · rw [hrec, List.dropLast_cons_of_ne_nil (by simp)] at hc
      rcases List.mem_cons.1 hc with rfl | hc
      · have hne : List.drop S (w :: ws) ≠ [] := by
          intro hnil
          rw [hnil] at hrec
          simp [chunkWords] at hrec
        have hlen : S < (w :: ws).length := by
          by_contra hcon
          exact hne (List.drop_eq_nil_of_le (by omega))
        simp only [List.length_take, List.length_cons] at hlen ⊢
        omega
      · exact ih c (by rw [hrec]; exact hc)

/-! ### Lemmas: Python range and slices -/

theorem except_map_ok {ε α β : Type _} (f : α → β) (x : α) :
    Except.map f (Except.ok x : Except ε α) = .ok (f x) := rfl

theorem except_map_error {ε α β : Type _} (f : α → β) (e : ε) :
    Except.map f (Except.error e : Except ε α) = .error e := rfl

theorem pySliceII_natCast (l : List α) (a b : Nat) :
    pySliceII l (a : Int) (b : Int) = (l.drop a).take (b - a) := by
  unfold pySliceII pySliceNorm
  rw [if_neg (by omega), if_neg (by omega), Int.toNat_natCast, Int.toNat_natCast]
  rcases le_or_lt a l.length with ha | ha
  · rw [Nat.min_eq_left ha, List.drop_take]
    rcases le_or_lt b l.length with hb | hb
    · rw [Nat.min_eq_left hb]
    · rw [Nat.min_eq_right hb.le]
      rw [List.take_of_length_le (by simp), List.take_of_length_le (by simp; omega)]
  · have e1 : l.drop a = [] := List.drop_eq_nil_of_le (by omega)
    have e2 : (l.take (min b l.length)).drop l.length = [] :=
      List.drop_eq_nil_of_le (by simp [List.length_take])
    rw [Nat.min_eq_right ha.le, e2, e1]
    simp

theorem pyRange_pos (n S : Nat) (hS : 0 < S) :
    pyRange 0 (n : Int) (S : Int) = .ok ((List.range ((n + S - 1) / S)).map (fun k => ((k * S : Nat) : Int))) := by
  unfold pyRange
  rw [if_neg (by omega), if_pos (by omega)]
  have hcount : ((Int.fdiv ((n : Int) - 0 + S - 1) S).toNat) = (n + S - 1) / S := by
    rw [show ((n : Int) - 0 + S - 1) = ((n + S - 1 : Nat) : Int) by omega,
      Int.fdiv_eq_ediv _ (by omega), ← Int.ofNat_ediv]
    exact Int.toNat_natCast _
  rw [hcount]
  congr 1
  apply List.map_congr_left
  intro k _
  push_cast
  ring

theorem chunk_slices (S : Nat) (hS : 0 < S) (words : List α) :
    (List.range ((words.length + S - 1) / S)).map
      (fun k => (words.drop (k * S)).take S) = chunkWords S words := by
  induction words using chunkWords.induct (S := S) with
  | case1 =>
    rw [List.length_nil, Nat.zero_add, Nat.div_eq_of_lt (by omega)]
    simp [chunkWords]
  | case2 w ws h => omega
  | case3 w ws h ih =>
    have hlen : (List.drop S (w :: ws)).length = (w :: ws).length - S := by simp
    have hcount : ((w :: ws).length + S - 1) / S = ((List.drop S (w :: ws)).length + S - 1) / S + 1 := by
      rw [hlen]
      rcases le_or_lt S (w :: ws).length with hc | hc
      · rw [show (w :: ws).length + S - 1 = (((w :: ws).length - S) + S - 1) + S by omega,
          Nat.add_div_right _ hS]
      · have h1 : ((w :: ws).length + S - 1) / S = 1 := by
          apply Nat.div_eq_of_lt_le
          · simp only [Nat.one_mul, List.length_cons]; omega
          · simp only [List.length_cons] at hc ⊢; omega
        have h2 : ((w :: ws).length - S + S - 1) / S = 0 :=
          Nat.div_eq_of_lt (by simp only [List.length_cons] at hc ⊢; omega)
        rw [h1, h2]
    rw [hcount, List.range_succ_eq_map, List.map_cons, List.map_map]
    rw [chunkWords, dif_neg h]
    congr 1
    · simp
    · rw [← ih]
      apply List.map_congr_left
      intro k _
      show ((w :: ws).drop ((k + 1) * S)).take S = _
      rw [show (k + 1) * S = S + k * S by ring, ← List.drop_drop]

/-- For a positive chunk size `S`, `split_into_chunks` succeeds and equals
the word-level chunking joined back into strings. -/
theorem split_into_chunks_pos (text : String) (S : Int) (hS : 0 < S) :
    split_into_chunks text S = .ok ((chunkWords S.toNat (pySplit text)).map joinSpace) := by
  lift S to ℕ using hS.le with m
  have hm : 0 < m := by exact_mod_cast hS
  unfold split_into_chunks
  rw [pyRange_pos _ _ hm, except_map_ok]
  simp only [Int.toNat_natCast]
  rw [List.map_map]
  have hfun : ∀ k ∈ List.range (((pySplit text).length + m - 1) / m),
      ((fun i => joinSpace (pySliceII (pySplit text) i (i + (m : Int)))) ∘
        (fun k => ((k * m : Nat) : Int))) k =
      joinSpace (((pySplit text).drop (k * m)).take m) := by
    intro k _
    show joinSpace (pySliceII (pySplit text) ((k * m : Nat) : Int) (((k * m : Nat) : Int) + (m : Int))) = _
    rw [show (((k * m : Nat) : Int) + (m : Int)) = ((k * m + m : Nat) : Int) by push_cast; ring,
      pySliceII_natCast]
    congr 2
    omega
  rw [List.map_congr_left hfun]
  rw [show (fun k => joinSpace (((pySplit text).drop (k * m)).take m)) =
      (joinSpace ∘ fun k => (((pySplit text).drop (k * m)).take m)) from rfl]
  rw [← List.map_map, chunk_slices m hm]

theorem chunkWords_replicate (S n : Nat) (hS : S ≠ 0) (hn : n ≠ 0) (a : α) :
    chunkWords S (List.replicate n a) =
      List.replicate (min S n) a :: chunkWords S (List.replicate (n - S) a) := by
  cases n with
  | zero => exact absurd rfl hn
  | succ m =>
    rw [List.replicate_succ, chunkWords, dif_neg hS, ← List.replicate_succ,
      List.take_replicate, List.drop_replicate]

theorem split_into_chunks_zero (text : String) :
    split_into_chunks text 0 = .error "ValueError: range() arg 3 must not be zero" := by
  unfold split_into_chunks pyRange
  rw [if_pos rfl, except_map_error]

theorem split_into_chunks_neg (text : String) (S : Int) (hS : S < 0) :
    split_into_chunks text S = .ok [] := by
  unfold split_into_chunks pyRange
  rw [if_neg (by omega), if_neg (by omega)]
  have hcount : (Int.fdiv (0 - ((pySplit text).length : Int) + (-S) - 1) (-S)).toNat = 0 := by
    rw [Int.fdiv_eq_ediv _ (by omega)]
    have h1 : (0 - ((pySplit text).length : Int) + (-S) - 1) / (-S) < 1 :=
      (Int.ediv_lt_iff_lt_mul (by omega)).2 (by omega)
    apply Int.toNat_of_nonpos
    omega
  rw [hcount]
  rfl

/-- C2: for every input text and every chunk size `S > 0`,
`split_into_chunks` succeeds, concatenating the word sequences of the
returned chunks reconstructs the whitespace-delimited word sequence of the
input exactly (no word lost, duplicated or reordered), and every chunk
except possibly the last has exactly `S` words; in particular a 1200-word
document split with chunk size 500 yields exactly 3 chunks of 500, 500 and
200 words. -/
theorem chunk_reconstruction (text : String) (S : Int) (hS : 0 < S) :
    (∃ chunks, split_into_chunks text S = .ok chunks ∧
      (chunks.map pySplit).flatten = pySplit text ∧
      ∀ c ∈ chunks.dropLast, (pySplit c).length = S.toNat) ∧
    (split_into_chunks (joinSpace (List.replicate 1200 "w")) 500).map
        (fun chunks => chunks.map (fun c => (pySplit c).length)) =
      .ok [500, 500, 200] := by
  have hSnz : S.toNat ≠ 0 := by omega
  constructor
  · refine ⟨(chunkWords S.toNat (pySplit text)).map joinSpace,
      split_into_chunks_pos text S hS, ?_, ?_⟩
    · rw [List.map_map]
      have hid : ∀ ws ∈ chunkWords S.toNat (pySplit text), (pySplit ∘ joinSpace) ws = ws := by
        intro ws hws
        obtain ⟨_, hsub⟩ := chunkWords_mem S.toNat hSnz (pySplit text) ws hws
        exact pySplit_joinSpace ws (fun w hw => pySplit_wf text w (hsub w hw))
      rw [List.map_congr_left hid, List.map_id']
      exact chunkWords_flatten S.toNat hSnz (pySplit text)
    · intro c hc
      rw [← List.map_dropLast] at hc
      obtain ⟨ws, hws, rfl⟩ := List.mem_map.1 hc
      have hmem : ws ∈ chunkWords S.toNat (pySplit text) := List.dropLast_subset _ hws
      obtain ⟨_, hsub⟩ := chunkWords_mem S.toNat hSnz (pySplit text) ws hmem
      rw [pySplit_joinSpace ws (fun w hw => pySplit_wf text w (hsub w hw))]
      exact chunkWords_dropLast_length S.toNat hSnz (pySplit text) ws hws
  · have hwf : ∀ k : Nat, ∀ w ∈ List.replicate k "w",
        w.toList ≠ [] ∧ ∀ c ∈ w.toList, c.isWhitespace = false := by
      intro k w hw
      rw [List.eq_of_mem_replicate hw]
      exact ⟨by decide, by decide⟩
    have h1200 : pySplit (joinSpace (List.replicate 1200 "w")) = List.replicate 1200 "w" :=
      pySplit_joinSpace _ (hwf 1200)
    have hk : ∀ k : Nat, (pySplit (joinSpace (List.replicate k "w"))).length = k := by
      intro k
      rw [pySplit_joinSpace _ (hwf k)]
      exact List.length_replicate k "w"
    rw [split_into_chunks_pos _ 500 (by norm_num), except_map_ok, h1200]
    rw [show ((500 : Int).toNat) = 500 by rfl]
    rw [chunkWords_replicate 500 1200 (by norm_num) (by norm_num) "w"]
    rw [show (1200 - 500 : Nat) = 700 by norm_num]
    rw [chunkWords_replicate 500 700 (by norm_num) (by norm_num) "w"]
    rw [show (700 - 500 : Nat) = 200 by norm_num]
    rw [chunkWords_replicate 500 200 (by norm_num) (by norm_num) "w"]
    rw [show (200 - 500 : Nat) = 0 by norm_num]
    rw [show List.replicate 0 "w" = ([] : List String) from rfl]
    rw [show chunkWords 500 ([] : List String) = [] by simp [chunkWords]]
    simp only [List.map_cons, List.map_nil, hk]
    norm_num

/-- C2 witness: the theorem applied to a concrete text and chunk size. -/
theorem chunk_reconstruction_witness :
    (0 : Int) < 2 ∧
    ((∃ chunks, split_into_chunks "alpha beta gamma" 2 = .ok chunks ∧
        (chunks.map pySplit).flatten = pySplit "alpha beta gamma" ∧
        ∀ c ∈ chunks.dropLast, (pySplit c).length = (2 : Int).toNat) ∧
      (split_into_chunks (joinSpace (List.replicate 1200 "w")) 500).map
          (fun chunks => chunks.map (fun c => (pySplit c).length)) =
        .ok [500, 500, 200]) :=
  ⟨by norm_num, chunk_reconstruction "alpha beta gamma" 2 (by norm_num)⟩

/-- C7 counterexample: with `chunk_size = -1` the Python `range(0, n, -1)`
is silently empty, so `split_into_chunks` returns the empty chunk list and
raises nothing, contradicting the claim that every `chunk_size ≤ 0` is a
surfaced error. -/
theorem chunk_size_negative_counterexample :
    split_into_chunks "words to chunk" (-1) = .ok [] :=
  split_into_chunks_neg "words to chunk" (-1) (by norm_num)

/-- C7 (amended): `chunk_size = 0` raises `ValueError` immediately, but a
negative `chunk_size` is a silent no-op returning the empty chunk
sequence. -/
theorem chunk_size_nonpos_behaviour (text : String) :
    split_into_chunks text 0 = .error "ValueError: range() arg 3 must not be zero" ∧
    ∀ S : Int, S < 0 → split_into_chunks text S = .ok [] :=
  ⟨split_into_chunks_zero text, fun S hS => split_into_chunks_neg text S hS⟩

/-- C7 witness: the amended theorem applied at `chunk_size = 0` and
`chunk_size = -1` on a concrete text. -/
theorem chunk_size_nonpos_behaviour_witness :
    split_into_chunks "a b" 0 = .error "ValueError: range() arg 3 must not be zero" ∧
    split_into_chunks "a b" (-1) = .ok [] :=
  ⟨(chunk_size_nonpos_behaviour "a b").1,
   (chunk_size_nonpos_behaviour "a b").2 (-1) (by norm_num)⟩

/-- C8 (amended): `add_legal_document` succeeds for every text; a
single-word text grows the store by exactly one chunk containing that
word, while an empty (or all-whitespace) text grows the store by zero
chunks. -/
theorem add_legal_document_degenerate (encode : String → Emb) (kb : KnowledgeBase Emb)
    (title content : String) :
    ∃ kb', add_legal_document encode kb title content = .ok kb' ∧
      (pySplit content = [] → kb' = kb) ∧
      (∀ w, pySplit content = [w] →
        kb'.documents = kb.documents ++ [⟨title, 0, w, encode w⟩]) := by
  refine ⟨⟨kb.documents ++ ((chunkWords (500 : Int).toNat (pySplit content)).map joinSpace).enum.map
      (fun ic => ⟨title, ic.1, ic.2, encode ic.2⟩)⟩, ?_, ?_, ?_⟩
  · unfold add_legal_document
    rw [split_into_chunks_pos content 500 (by norm_num), except_map_ok]
  · intro h
    rw [h, show chunkWords ((500 : Int).toNat) ([] : List String) = [] by simp [chunkWords]]
    simp
  · intro w h
    rw [h, show ((500 : Int).toNat) = 500 from rfl]
    rw [show chunkWords 500 [w] = [[w]] by
      rw [chunkWords, dif_neg (by norm_num), List.take_of_length_le (by simp),
        List.drop_eq_nil_of_le (by simp)]
      simp [chunkWords]]
    rfl

/-- C8 witness: the amended theorem applied to a concrete single-word
ingestion. -/
theorem add_legal_document_degenerate_witness :
    ∃ kb', add_legal_document (fun _ => (() : Unit)) (⟨[]⟩ : KnowledgeBase Unit)
        "employment_law" "liability" = .ok kb' ∧
      kb'.documents = [⟨"employment_law", 0, "liability", ()⟩] := by
  obtain ⟨kb', h1, _h2, h3⟩ :=
    add_legal_document_degenerate (fun _ => (() : Unit)) (⟨[]⟩ : KnowledgeBase Unit)
      "employment_law" "liability"
  refine ⟨kb', h1, ?_⟩
  rw [h3 "liability" (by simp [pySplit, pySplitChars])]
  rfl

/-- C8 counterexample: ingesting the empty text adds zero chunks, not the
one chunk the claim asserts — the store is unchanged. -/
theorem add_empty_text_counterexample :
    add_legal_document (fun _ => (() : Unit)) (⟨[]⟩ : KnowledgeBase Unit) "contract_law" ""
      = .ok ⟨[]⟩ := by
  unfold add_legal_document
  rw [split_into_chunks_pos _ 500 (by norm_num), except_map_ok]
  rw [show pySplit "" = [] by simp [pySplit, pySplitChars]]
  rw [show chunkWords ((500 : Int).toNat) ([] : List String) = [] by simp [chunkWords]]
  rfl

/-! ### Lemmas: argsort and the top-k selection -/

theorem argsortLE_trans (xs : List ℚ) :
    ∀ a b c : Nat, argsortLE xs a b → argsortLE xs b c → argsortLE xs a c := by
  intro a b c hab hbc
  simp only [argsortLE, decide_eq_true_eq] at *
  rcases hab with h1 | ⟨h1, h1'⟩ <;> rcases hbc with h2 | ⟨h2, h2'⟩
  · exact Or.inl (h1.trans h2)
  · exact Or.inl (h2 ▸ h1)
  · exact Or.inl (h1 ▸ h2)
  · exact Or.inr ⟨h1.trans h2, le_trans h1' h2'⟩

theorem argsortLE_total (xs : List ℚ) :
    ∀ a b : Nat, argsortLE xs a b || argsortLE xs b a := by
  intro a b
  simp only [argsortLE, Bool.or_eq_true, decide_eq_true_eq]
  rcases lt_trichotomy (xs.getD a 0) (xs.getD b 0) with h | h | h
  · exact Or.inl (Or.inl h)
  · rcases le_total a b with hab | hab
    · exact Or.inl (Or.inr ⟨h, hab⟩)
    · exact Or.inr (Or.inr ⟨h.symm, hab⟩)
  · exact Or.inr (Or.inl h)

theorem argsort_length (xs : List ℚ) : (argsort xs).length = xs.length := by
  unfold argsort
  rw [List.length_mergeSort, List.length_range]

theorem argsort_nodup (xs : List ℚ) : (argsort xs).Nodup :=
  ((List.mergeSort_perm (List.range xs.length) (argsortLE xs)).symm).nodup
    (List.nodup_range xs.length)

/-- The stable argsort is strictly sorted: for `i` before `j`, either
`xs[i] < xs[j]` or the scores are equal and `i < j`. -/
theorem argsort_pairwise (xs : List ℚ) :
    (argsort xs).Pairwise
      (fun i j => xs.getD i 0 < xs.getD j 0 ∨ (xs.getD i 0 = xs.getD j 0 ∧ i < j)) := by
  have hs : (argsort xs).Pairwise (fun i j => argsortLE xs i j = true) :=
    List.sorted_mergeSort (argsortLE_trans xs) (argsortLE_total xs) (List.range xs.length)
  have hnd : (argsort xs).Pairwise (fun i j : Nat => i ≠ j) := argsort_nodup xs
  refine (hs.and hnd).imp ?_
  rintro a b ⟨h1, h2⟩
  simp only [argsortLE, decide_eq_true_eq] at h1
  rcases h1 with h1 | ⟨h1, h1'⟩
  · exact Or.inl h1
  · exact Or.inr ⟨h1, lt_of_le_of_ne h1' h2⟩

theorem search_top_indices_length (sims : List ℚ) (k : Nat) (hk : 1 ≤ k) :
    (search_top_indices sims k).length = min k sims.length := by
  unfold search_top_indices pySliceLast pySliceNorm
  rw [List.length_reverse, List.length_drop, argsort_length, if_pos (by omega)]
  omega

/-- Model-level ordering fact: in the executable refinement the selected
indices are ordered by non-increasing score, ties coming back in order of
descending original index.  Program-level theorems consume only its
tie-insensitive consequence (non-increasing scores). -/
theorem search_top_indices_pairwise (sims : List ℚ) (k : Nat) :
    (search_top_indices sims k).Pairwise
      (fun i j => sims.getD j 0 < sims.getD i 0 ∨ (sims.getD i 0 = sims.getD j 0 ∧ j < i)) := by
  unfold search_top_indices pySliceLast
  rw [List.pairwise_reverse]
  have hsub := List.drop_sublist (pySliceNorm (argsort sims).length (-(k : Int))) (argsort sims)
  refine (List.Pairwise.sublist hsub (argsort_pairwise sims)).imp ?_
  rintro a b (h | ⟨h1, h2⟩)
  · exact Or.inl h
  · exact Or.inr ⟨h1.symm, h2⟩

/-- C1 (amended): on an empty store every query returns the empty list and
never errors; for every `k ≥ 1` the query returns exactly `min k n`
results, ordered by non-increasing similarity.  No tie order among equal
similarities is asserted: the source's `np.argsort` default sort is
documented unstable, so the program guarantees no particular tie order
(and in particular not the claimed insertion order — see the
counterexample); the properties stated here are insensitive to how
`argsort` orders equal scores.  (As stated, the claim also fails for
`k = 0`, where Python's `[-0:]` slice selects the whole store.) -/
theorem search_query_spec {Emb : Type} [Inhabited Emb] (sim : Emb → Emb → ℚ)
    (encode : String → Emb) (kb : KnowledgeBase Emb) (query : String) :
    (kb.documents = [] → ∀ k, search_relevant_docs sim encode kb query k = []) ∧
    (∀ k, 1 ≤ k →
      (search_relevant_docs sim encode kb query k).length = min k kb.documents.length ∧
      (search_relevant_docs sim encode kb query k).Pairwise (fun a b => b.2 ≤ a.2)) := by
  constructor
  · intro h k
    unfold search_relevant_docs
    rw [if_pos (by simp [h])]
  · intro k hk
    by_cases hemp : kb.documents.isEmpty
    · have hnil : kb.documents = [] := by simpa [List.isEmpty_iff] using hemp
      refine ⟨?_, ?_⟩
      · unfold search_relevant_docs
        rw [if_pos hemp, hnil]
        simp
      · unfold search_relevant_docs
        rw [if_pos hemp]
        exact List.Pairwise.nil
    · refine ⟨?_, ?_⟩
      · unfold search_relevant_docs
        rw [if_neg hemp, List.length_map, search_top_indices_length _ _ hk]
        unfold similarity_scores
        rw [List.length_map]
      · unfold search_relevant_docs
        rw [if_neg hemp, List.pairwise_map]
        refine (search_top_indices_pairwise _ k).imp ?_
        rintro a b (h | ⟨h1, _⟩)
        · exact le_of_lt h
        · exact le_of_eq h1.symm

/-- C1 witness: the theorem applied to an empty store and to a concrete
two-document store with `k = 2`. -/
theorem search_query_spec_witness :
    search_relevant_docs (fun _ _ => (1 : ℚ)) (fun _ => (() : Unit)) ⟨[]⟩ "q" 3 = [] ∧
    (search_relevant_docs (fun _ _ => (1 : ℚ)) (fun _ => (() : Unit))
        (⟨[⟨"d0", 0, "c0", ()⟩, ⟨"d1", 1, "c1", ()⟩]⟩ : KnowledgeBase Unit) "q" 2).length =
      min 2 (⟨[⟨"d0", 0, "c0", ()⟩, ⟨"d1", 1, "c1", ()⟩]⟩ : KnowledgeBase Unit).documents.length := by
  constructor
  · exact (search_query_spec (fun _ _ => (1 : ℚ)) (fun _ => (() : Unit)) ⟨[]⟩ "q").1 rfl 3
  · exact ((search_query_spec (fun _ _ => (1 : ℚ)) (fun _ => (() : Unit))
      (⟨[⟨"d0", 0, "c0", ()⟩, ⟨"d1", 1, "c1", ()⟩]⟩ : KnowledgeBase Unit) "q").2 2 (by norm_num)).1

/-- C1 counterexample: the claim as stated fails twice.  With `k = 0` on a
one-document store the query returns 1 result, not `min 0 1 = 0` (Python
`[-0:]` is the whole list).  And the claimed insertion-order tie-break
also fails: on a two-document store whose chunks have equal similarity,
`k = 2` returns the documents in *descending* insertion order
`["d1", "d0"]` — a 2-element array is below NumPy's introsort
insertion-sort cutoff, where the real `np.argsort` coincides with the
executable model — and for larger stores the unstable default sort
guarantees no insertion-derived order at all. -/
theorem search_query_counterexample :
    (search_relevant_docs (fun _ _ => (1 : ℚ)) (fun _ => (() : Unit))
        (⟨[⟨"d0", 0, "c0", ()⟩]⟩ : KnowledgeBase Unit) "q" 0).length = 1 ∧
    (search_relevant_docs (fun _ _ => (1 : ℚ)) (fun _ => (() : Unit))
        (⟨[⟨"d0", 0, "c0", ()⟩, ⟨"d1", 1, "c1", ()⟩]⟩ : KnowledgeBase Unit) "q" 2).map
      (fun r => r.1.title) = ["d1", "d0"] := by
  constructor
  · have hr : List.range 1 = [0] := rfl
    simp [search_relevant_docs, search_top_indices, similarity_scores, argsort, hr,
      List.mergeSort, pySliceLast, pySliceNorm]
  · have h01 : argsortLE [(1 : ℚ), 1] 0 1 = true := by simp [argsortLE]
    have hr : List.range 2 = [0, 1] := rfl
    simp [search_relevant_docs, search_top_indices, similarity_scores, argsort, hr,
      List.mergeSort, List.merge, h01, pySliceLast, pySliceNorm]

/-- C6: for a persona with a knowledge-store binding, the store is queried
with `top_k = 2`, so at most 2 hits can be appended; when the query has no
hits the knowledge section of the prompt is the empty string (no
placeholder), and when it has hits the section is the header followed by
one title-plus-200-character-excerpt line per hit. -/
theorem knowledge_context_spec {Emb : Type} [Inhabited Emb] (sim : Emb → Emb → ℚ)
    (encode : String → Emb) (p : AIPersona Emb) (kb : KnowledgeBase Emb)
    (user_input : String) (hkb : p.knowledge_base = some kb) :
    (search_relevant_docs sim encode kb user_input 2).length ≤ 2 ∧
    (search_relevant_docs sim encode kb user_input 2 = [] →
      knowledge_context sim encode p user_input = "") ∧
    (search_relevant_docs sim encode kb user_input 2 ≠ [] →
      knowledge_context sim encode p user_input =
        "\nRELEVANT KNOWLEDGE:\n" ++
          String.join ((search_relevant_docs sim encode kb user_input 2).map
            (fun doc => "- " ++ doc.1.title ++ ": " ++ doc.1.content.take 200 ++ "...\n"))) := by
  refine ⟨?_, ?_, ?_⟩
  · by_cases hemp : kb.documents.isEmpty
    · unfold search_relevant_docs
      rw [if_pos hemp]
      simp
    · unfold search_relevant_docs
      rw [if_neg hemp, List.length_map, search_top_indices_length _ _ (by norm_num)]
      exact le_trans (Nat.min_le_left _ _) (le_refl 2)
  · intro h
    unfold knowledge_context
    rw [hkb]
    simp [h]
  · intro h
    unfold knowledge_context
    rw [hkb]
    simp [List.isEmpty_iff, h]

/-- C6 witness: the theorem applied to a persona bound to a concrete
one-chunk store. -/
theorem knowledge_context_spec_witness :
    (search_relevant_docs (fun _ _ => (1 : ℚ)) (fun _ => (() : Unit))
        (⟨[⟨"contract_law", 0, "chunk text", ()⟩]⟩ : KnowledgeBase Unit) "offer" 2).length ≤ 2 ∧
    (search_relevant_docs (fun _ _ => (1 : ℚ)) (fun _ => (() : Unit))
        (⟨[⟨"contract_law", 0, "chunk text", ()⟩]⟩ : KnowledgeBase Unit) "offer" 2 ≠ [] →
      knowledge_context (fun _ _ => (1 : ℚ)) (fun _ => (() : Unit))
          ⟨"Legal-AI", "Legal Expert", [], "llama2",
            some ⟨[⟨"contract_law", 0, "chunk text", ()⟩]⟩, false⟩ "offer" =
        "\nRELEVANT KNOWLEDGE:\n" ++
          String.join ((search_relevant_docs (fun _ _ => (1 : ℚ)) (fun _ => (() : Unit))
              (⟨[⟨"contract_law", 0, "chunk text", ()⟩]⟩ : KnowledgeBase Unit) "offer" 2).map
            (fun doc => "- " ++ doc.1.title ++ ": " ++ doc.1.content.take 200 ++ "...\n"))) := by
  have h := knowledge_context_spec (fun _ _ => (1 : ℚ)) (fun _ => (() : Unit))
    (⟨"Legal-AI", "Legal Expert", [], "llama2",
      some ⟨[⟨"contract_law", 0, "chunk text", ()⟩]⟩, false⟩ : AIPersona Unit)
    ⟨[⟨"contract_law", 0, "chunk text", ()⟩]⟩ "offer" rfl
  exact ⟨h.1, h.2.2⟩

/-! ### Lemmas: context window and system prompt -/

theorem context_messages_loop_eq (ctx : List Message)
    (others : Option (List PanelResponse)) :
    context_messages_loop ctx others = context_window_spec ctx others := by
  have hbase : ∀ (l : List Message) (acc : List String),
      l.foldl (fun acc msg => if msg.speaker ≠ "System" then acc ++ [formatMsg msg] else acc) acc
        = acc ++ (l.filter (fun m => m.speaker != "System")).map formatMsg := by
    intro l
    induction l with
    | nil => intro acc; simp
    | cons m l ih =>
      intro acc
      by_cases hm : m.speaker = "System"
      · rw [List.foldl_cons, if_neg (fun hne => hne hm), List.filter_cons,
          show (m.speaker != "System") = false by simp [hm]]
        rw [show (if false = true then m :: List.filter (fun x => x.speaker != "System") l
            else List.filter (fun x => x.speaker != "System") l) =
          List.filter (fun x => x.speaker != "System") l by simp]
        exact ih acc
      · rw [List.foldl_cons, if_pos hm, List.filter_cons,
          show (m.speaker != "System") = true by simp [hm]]
        rw [show (if true = true then m :: List.filter (fun x => x.speaker != "System") l
            else List.filter (fun x => x.speaker != "System") l) =
          m :: List.filter (fun x => x.speaker != "System") l by simp]
        rw [ih (acc ++ [formatMsg m])]
        simp
  have hresp : ∀ (rs : List PanelResponse) (acc : List String),
      rs.foldl (fun acc r => acc ++ [r.speaker ++ ": " ++ r.message]) acc
        = acc ++ rs.map (fun r => r.speaker ++ ": " ++ r.message) := by
    intro rs
    induction rs with
    | nil => intro acc; simp
    | cons r rs ih =>
      intro acc
      simp only [List.foldl_cons, List.map_cons]
      rw [ih]
      simp
  unfold context_messages_loop context_window_spec
  cases others with
  | none =>
    show (pySliceLast ctx 10).foldl
        (fun acc msg => if msg.speaker ≠ "System" then acc ++ [formatMsg msg] else acc) [] =
      ((pySliceLast ctx 10).filter (fun m => m.speaker != "System")).map formatMsg ++
        (Option.getD (α := List PanelResponse) none []).map
          (fun r => r.speaker ++ ": " ++ r.message)
    rw [hbase]
    simp
  | some rs =>
    show rs.foldl (fun acc r => acc ++ [r.speaker ++ ": " ++ r.message])
        ((pySliceLast ctx 10).foldl
          (fun acc msg => if msg.speaker ≠ "System" then acc ++ [formatMsg msg] else acc) []) =
      ((pySliceLast ctx 10).filter (fun m => m.speaker != "System")).map formatMsg ++
        (Option.getD (some rs) []).map (fun r => r.speaker ++ ": " ++ r.message)
    rw [hbase, hresp]
    simp

/-- C5 (amended): the conversation-context section of the prompt is built
from the last 10 transcript turns with `System` turns excluded (plus any
supplied peer responses), but then only the *last 5* entries of that
window appear in the prompt, with the placeholder `"No prior context"`
when the window is empty.  (The claim as stated — the full last-10
filtered window — fails; see the counterexample.) -/
theorem conversation_context_window (ctx : List Message)
    (others : Option (List PanelResponse)) :
    context_messages_loop ctx others = context_window_spec ctx others ∧
    conversation_context_str (context_messages_loop ctx others) =
      (if context_window_spec ctx others = [] then "No prior context"
       else "\n".intercalate (pySliceLast (context_window_spec ctx others) 5)) ∧
    (pySliceLast (context_window_spec ctx others) 5).length ≤ 5 := by
  refine ⟨context_messages_loop_eq ctx others, ?_, ?_⟩
  · rw [context_messages_loop_eq]
    unfold conversation_context_str
    by_cases h : context_window_spec ctx others = [] <;> simp [h]
  · unfold pySliceLast pySliceNorm
    rw [List.length_drop, if_pos (by omega)]
    omega

/-- C5 counterexample: a 10-turn transcript of non-`System` turns.  The
assembled context section holds only the last 5 formatted turns, not the
full filtered 10-turn window the claim describes. -/
theorem conversation_context_counterexample :
    conversation_context_str (context_messages_loop
        [⟨"You", "m1"⟩, ⟨"You", "m2"⟩, ⟨"You", "m3"⟩, ⟨"You", "m4"⟩, ⟨"You", "m5"⟩,
         ⟨"You", "m6"⟩, ⟨"You", "m7"⟩, ⟨"You", "m8"⟩, ⟨"You", "m9"⟩, ⟨"You", "m10"⟩] none) =
      "You: m6\nYou: m7\nYou: m8\nYou: m9\nYou: m10" ∧
    conversation_context_str (context_messages_loop
        [⟨"You", "m1"⟩, ⟨"You", "m2"⟩, ⟨"You", "m3"⟩, ⟨"You", "m4"⟩, ⟨"You", "m5"⟩,
         ⟨"You", "m6"⟩, ⟨"You", "m7"⟩, ⟨"You", "m8"⟩, ⟨"You", "m9"⟩, ⟨"You", "m10"⟩] none) ≠
      "\n".intercalate (((pySliceLast
        [⟨"You", "m1"⟩, ⟨"You", "m2"⟩, ⟨"You", "m3"⟩, ⟨"You", "m4"⟩, ⟨"You", "m5"⟩,
         ⟨"You", "m6"⟩, ⟨"You", "m7"⟩, ⟨"You", "m8"⟩, ⟨"You", "m9"⟩, ⟨"You", "m10"⟩]
          10).filter (fun m => m.speaker != "System")).map formatMsg) := by
  constructor
  · decide
  · decide

/-- C9: `generate_system_prompt` is a deterministic function of the
persona's identity (its name and whether the specialized prompt registry
is attached), role and personality: any two personas agreeing on those
fields — whatever their backend model name, knowledge-store binding or
embedding type — receive character-identical instruction text, so calling
it twice with unchanged personality yields identical text. -/
theorem generate_system_prompt_deterministic {Emb Emb' : Type}
    (p : AIPersona Emb) (q : AIPersona Emb')
    (hname : p.name = q.name) (hrole : p.role = q.role)
    (hpers : p.personality = q.personality)
    (hpm : p.prompt_manager = q.prompt_manager) :
    generate_system_prompt p = generate_system_prompt q := by
  unfold generate_system_prompt base_system_prompt
  rw [hname, hrole, hpers, hpm]

/-- C9 witness: the Legal-AI persona and a copy that differs only in its
backend model name and knowledge-store binding produce identical text. -/
theorem generate_system_prompt_deterministic_witness :
    generate_system_prompt (legal_ai true : AIPersona Unit) =
      generate_system_prompt
        (⟨"Legal-AI", "Legal Expert", (legal_ai true : AIPersona Unit).personality,
          "mistral", some ⟨[]⟩, true⟩ : AIPersona Unit) :=
  generate_system_prompt_deterministic _ _ rfl rfl rfl rfl

/-! ### Lemmas: consultation rounds -/

/-- Characterisation of the first-round fold: starting from any
accumulator it appends one entry per persona, in order, mirrored into the
transcript, counting one backend invocation each. -/
theorem first_round_go {Emb : Type} [Inhabited Emb] (sim : Emb → Emb → ℚ)
    (encode : String → Emb) (gen : String → String → Except String String)
    (user_input : String) :
    ∀ (ais : List (String × AIPersona Emb)) (rs : List PanelResponse)
      (hist : List Message) (n : Nat),
      ∃ delta : List PanelResponse,
        (ais.foldl
          (fun acc kv =>
            let response := generate_response sim encode gen kv.2 user_input acc.2.1 none
            (acc.1 ++ [⟨kv.2.name, response, kv.1⟩],
             acc.2.1 ++ [⟨kv.2.name, response⟩],
             acc.2.2 + 1))
          (rs, hist, n)) =
          (rs ++ delta,
           hist ++ delta.map (fun r => (⟨r.speaker, r.message⟩ : Message)),
           n + ais.length) ∧
        delta.map (fun r => (r.speaker, r.ai_key)) = ais.map (fun kv => (kv.2.name, kv.1)) := by
  intro ais
  induction ais with
  | nil => intro rs hist n; exact ⟨[], by simp, rfl⟩
  | cons kv ais ih =>
    intro rs hist n
    rw [List.foldl_cons]
    obtain ⟨delta, h1, h2⟩ :=
      ih (rs ++ [⟨kv.2.name, generate_response sim encode gen kv.2 user_input hist none, kv.1⟩])
        (hist ++ [⟨kv.2.name, generate_response sim encode gen kv.2 user_input hist none⟩])
        (n + 1)
    refine ⟨⟨kv.2.name, generate_response sim encode gen kv.2 user_input hist none, kv.1⟩ :: delta,
      ?_, ?_⟩
    · rw [h1]
      simp only [List.map_cons, List.length_cons]
      refine congrArg₂ _ (by simp) (congrArg₂ _ (by simp) (by omega))
    · rw [List.map_cons, h2, List.map_cons]

/-- C4: a first round appends exactly one response entry per registered
persona, in fixed registration order, both to the returned list and to the
transcript — whatever the generation backend does — and any generation
failure (`.error`) is caught inside the persona's respond and surfaced as
a visible error string as that persona's response, never aborting the
other entries. -/
theorem first_round_robust {Emb : Type} [Inhabited Emb] (sim : Emb → Emb → ℚ)
    (encode : String → Emb) (gen : String → String → Except String String)
    (ais : List (String × AIPersona Emb)) (history : List Message) (user_input : String) :
    ((first_round sim encode gen ais history user_input).1.length = ais.length ∧
     (first_round sim encode gen ais history user_input).1.map (fun r => r.speaker) =
       ais.map (fun kv => kv.2.name) ∧
     (first_round sim encode gen ais history user_input).1.map (fun r => r.ai_key) =
       ais.map (fun kv => kv.1) ∧
     (first_round sim encode gen ais history user_input).2.1 =
       history ++ (first_round sim encode gen ais history user_input).1.map
         (fun r => (⟨r.speaker, r.message⟩ : Message)) ∧
     (first_round sim encode gen ais history user_input).2.2 = ais.length) ∧
    (∀ (p : AIPersona Emb) (ctx : List Message) (others : Option (List PanelResponse))
        (e : String),
      gen p.model_name (full_prompt sim encode p user_input ctx others) = .error e →
      generate_response sim encode gen p user_input ctx others =
        "Error generating response: " ++ e) := by
  constructor
  · obtain ⟨delta, h1, h2⟩ := first_round_go sim encode gen user_input ais [] history 0
    have hr : first_round sim encode gen ais history user_input =
        (delta, history ++ delta.map (fun r => (⟨r.speaker, r.message⟩ : Message)), ais.length) := by
      unfold first_round
      rw [h1]
      simp
    rw [hr]
    have hlen : delta.length = ais.length := by
      have := congrArg List.length h2
      simpa using this
    have hspeaker : delta.map (fun r => r.speaker) = ais.map (fun kv => kv.2.name) := by
      have := congrArg (List.map Prod.fst) h2
      simpa [List.map_map, Function.comp] using this
    have hkey : delta.map (fun r => r.ai_key) = ais.map (fun kv => kv.1) := by
      have := congrArg (List.map Prod.snd) h2
      simpa [List.map_map, Function.comp] using this
    exact ⟨hlen, hspeaker, hkey, rfl, rfl⟩
  · intro p ctx others e he
    unfold generate_response
    rw [he]

/-- C4 witness: with a backend that fails every call, the standard
three-persona roster still yields exactly 3 first-round entries, and the
failing call surfaces as the persona's visible error-string response. -/
theorem first_round_robust_witness :
    (first_round (fun _ _ => (1 : ℚ)) (fun _ => (() : Unit))
        (fun _ _ => .error "backend down") (setup_ai_personas true) initial_history
        "Should we scrape competitor pricing?").1.length = 3 ∧
    generate_response (fun _ _ => (1 : ℚ)) (fun _ => (() : Unit))
        (fun _ _ => .error "backend down") (tech_ai true : AIPersona Unit)
        "Should we scrape competitor pricing?" [] none =
      "Error generating response: backend down" := by
  constructor
  · have h := (first_round_robust (fun _ _ => (1 : ℚ)) (fun _ => (() : Unit))
      (fun _ _ => .error "backend down") (setup_ai_personas true) initial_history
      "Should we scrape competitor pricing?").1.1
    simpa using h
  · exact (first_round_robust (fun _ _ => (1 : ℚ)) (fun _ => (() : Unit))
      (fun _ _ => .error "backend down") (setup_ai_personas true) initial_history
      "Should we scrape competitor pricing?").2 (tech_ai true) [] none "backend down" rfl

/-- C3: any user input whose lower-cased (stripped) text contains a
denylist keyword fails the ethical check and routes the turn to the
Blocked branch: the round returns exactly the 3 fixed canned refusals, one
per persona, appends them (plus the `You` turn) to the transcript, and
performs zero generation-backend invocations — the result does not depend
on the backend at all. -/
theorem run_turn_blocked {Emb : Type} [Inhabited Emb] (sim : Emb → Emb → ℚ)
    (encode : String → Emb) (gen : String → String → Except String String)
    (follow_up : Bool) (chosen ais : List (String × AIPersona Emb))
    (history : List Message) (raw_input : String)
    (h : ∃ kw ∈ unethical_keywords, pyContains (pyLower (pyStrip raw_input)) kw = true) :
    check_ethical_boundaries (pyStrip raw_input) = false ∧
    run_turn sim encode gen follow_up chosen ais history raw_input =
      (unethical_panel_responses,
       history ++ ⟨"You", pyStrip raw_input⟩ ::
         unethical_panel_responses.map (fun r => (⟨r.speaker, r.message⟩ : Message)),
       0) ∧
    unethical_panel_responses.map (fun r => r.speaker) =
      ["Legal-AI", "Tech-AI", "Business-AI"] := by
  have hany : unethical_keywords.any
      (fun keyword => pyContains (pyLower (pyStrip raw_input)) keyword) = true := by
    obtain ⟨kw, hkw, hc⟩ := h
    exact List.any_eq_true.2 ⟨kw, hkw, hc⟩
  have hcheck : check_ethical_boundaries (pyStrip raw_input) = false := by
    unfold check_ethical_boundaries
    rw [hany]
    rfl
  have hquit : (["quit", "exit", "q"].contains (pyLower (pyStrip raw_input))) = false := by
    rcases hq : ["quit", "exit", "q"].contains (pyLower (pyStrip raw_input)) with _ | _
    · rfl
    · exfalso
      have hmem : pyLower (pyStrip raw_input) = "quit" ∨ pyLower (pyStrip raw_input) = "exit" ∨
          pyLower (pyStrip raw_input) = "q" := by
        simpa using hq
      rcases hmem with heq | heq | heq <;>
        · rw [heq] at hany
          exact absurd hany (by decide)
  have hne : ¬(pyStrip raw_input = "") := by
    intro h0
    rw [h0] at hany
    exact absurd hany (by decide)
  refine ⟨hcheck, ?_, by decide⟩
  unfold run_turn
  rw [if_neg (by rw [hquit]; exact Bool.false_ne_true), if_neg hne, if_pos hcheck]
  unfold handle_unethical_request
  simp

/-- C3 witness: the theorem applied to a concrete mixed-case input
containing `hack`, with an arbitrary concrete backend. -/
theorem run_turn_blocked_witness :
    check_ethical_boundaries (pyStrip "How to HACK the competitor database") = false ∧
    run_turn (fun _ _ => (1 : ℚ)) (fun _ => (() : Unit)) (fun _ _ => .ok "resp") true []
        (setup_ai_personas true) initial_history "How to HACK the competitor database" =
      (unethical_panel_responses,
       initial_history ++ ⟨"You", pyStrip "How to HACK the competitor database"⟩ ::
         unethical_panel_responses.map (fun r => (⟨r.speaker, r.message⟩ : Message)),
       0) ∧
    unethical_panel_responses.map (fun r => r.speaker) =
      ["Legal-AI", "Tech-AI", "Business-AI"] :=
  run_turn_blocked (fun _ _ => (1 : ℚ)) (fun _ => (() : Unit)) (fun _ _ => .ok "resp") true []
    (setup_ai_personas true) initial_history "How to HACK the competitor database"
    ⟨"hack", by decide, by decide⟩

/-- Every transcript entry the follow-up fold appends carries the plain
persona name of one of the chosen personas. -/
theorem follow_round_go {Emb : Type} [Inhabited Emb] (sim : Emb → Emb → ℚ)
    (encode : String → Emb) (gen : String → String → Except String String)
    (user_input : String) :
    ∀ (chosen : List (String × AIPersona Emb))
      (acc : List PanelResponse × List Message × Nat),
      ∀ m ∈ (chosen.foldl
          (fun acc kv =>
            let follow_up_response :=
              generate_response sim encode gen kv.2 user_input acc.2.1 (some acc.1)
            (acc.1 ++ [⟨kv.2.name ++ " (follow-up)", follow_up_response, kv.1⟩],
             acc.2.1 ++ [⟨kv.2.name, follow_up_response⟩],
             acc.2.2 + 1))
          acc).2.1,
        m ∈ acc.2.1 ∨ m.speaker ∈ chosen.map (fun kv => kv.2.name) := by
  intro chosen
  induction chosen with
  | nil => intro acc m hm; exact Or.inl hm
  | cons kv chosen ih =>
    intro acc m hm
    rw [List.foldl_cons] at hm
    rcases ih _ m hm with hin | hsp
    · rcases List.mem_append.1 hin with h | h
      · exact Or.inl h
      · right
        rw [List.map_cons]
        have hm' := List.mem_singleton.1 h
        subst hm'
        exact List.mem_cons_self _ _
    · right
      rw [List.map_cons]
      exact List.mem_cons_of_mem _ hsp

/-- Every transcript entry appended by a whole round carries a plain
persona name, even though the returned response list labels follow-up
entries with a `" (follow-up)"` suffix. -/
theorem generate_ai_responses_speakers {Emb : Type} [Inhabited Emb] (sim : Emb → Emb → ℚ)
    (encode : String → Emb) (gen : String → String → Except String String)
    (fu : Bool) (chosen ais : List (String × AIPersona Emb)) (hist : List Message)
    (input : String) :
    ∀ m ∈ (generate_ai_responses sim encode gen fu chosen ais hist input).2.1,
      m ∈ hist ∨ m.speaker ∈ ais.map (fun kv => kv.2.name) ∨
        m.speaker ∈ chosen.map (fun kv => kv.2.name) := by
  intro m hm
  unfold generate_ai_responses at hm
  obtain ⟨delta, h1, h2⟩ := first_round_go sim encode gen input ais [] hist 0
  have hfr : first_round sim encode gen ais hist input =
      (delta, hist ++ delta.map (fun r => (⟨r.speaker, r.message⟩ : Message)), ais.length) := by
    unfold first_round
    rw [h1]
    simp
  have hdelta : ∀ r ∈ delta, r.speaker ∈ ais.map (fun kv => kv.2.name) := by
    intro r hr
    have hp : (r.speaker, r.ai_key) ∈ delta.map (fun r => (r.speaker, r.ai_key)) :=
      List.mem_map_of_mem _ hr
    rw [h2] at hp
    obtain ⟨kv, hkv, heq⟩ := List.mem_map.1 hp
    rw [show r.speaker = kv.2.name from (congrArg Prod.fst heq).symm]
    exact List.mem_map_of_mem _ hkv
  by_cases hfu : fu
  · rw [if_pos hfu, hfr] at hm
    rcases follow_round_go sim encode gen input chosen _ m hm with hin | hsp
    · rcases List.mem_append.1 hin with h | h
      · exact Or.inl h
      · obtain ⟨r, hr, rfl⟩ := List.mem_map.1 h
        exact Or.inr (Or.inl (hdelta r hr))
    · exact Or.inr (Or.inr hsp)
  · rw [if_neg hfu, hfr] at hm
    rcases List.mem_append.1 hm with h | h
    · exact Or.inl h
    · obtain ⟨r, hr, rfl⟩ := List.mem_map.1 h
      exact Or.inr (Or.inl (hdelta r hr))

/-- Every transcript entry appended by one turn of the consultation loop
is the `You` turn, a plain persona name, or one of the three hardcoded
names of the canned refusals. -/
theorem run_turn_speakers {Emb : Type} [Inhabited Emb] (sim : Emb → Emb → ℚ)
    (encode : String → Emb) (gen : String → String → Except String String)
    (fu : Bool) (chosen ais : List (String × AIPersona Emb)) (hist : List Message)
    (raw : String) (hch : ∀ c ∈ chosen, c ∈ ais) :
    ∀ m ∈ (run_turn sim encode gen fu chosen ais hist raw).2.1,
      m ∈ hist ∨ m.speaker = "You" ∨ m.speaker ∈ ais.map (fun kv => kv.2.name) ∨
        m.speaker ∈ ["Legal-AI", "Tech-AI", "Business-AI"] := by
  intro m hm
  unfold run_turn at hm
  by_cases h1 : (["quit", "exit", "q"].contains (pyLower (pyStrip raw))) = true
  · rw [if_pos h1] at hm
    exact Or.inl hm
  · rw [if_neg h1] at hm
    by_cases h2 : pyStrip raw = ""
    · rw [if_pos h2] at hm
      exact Or.inl hm
    · rw [if_neg h2] at hm
      by_cases h3 : check_ethical_boundaries (pyStrip raw) = false
      · rw [if_pos h3] at hm
        unfold handle_unethical_request at hm
        rcases List.mem_append.1 hm with hin | hin
        · rcases List.mem_append.1 hin with hin' | hin'
          · exact Or.inl hin'
          · have := List.mem_singleton.1 hin'
            subst this
            exact Or.inr (Or.inl rfl)
        · right; right; right
          revert hin
          have : ∀ x ∈ unethical_panel_responses.map
              (fun r => (⟨r.speaker, r.message⟩ : Message)),
              x.speaker ∈ ["Legal-AI", "Tech-AI", "Business-AI"] := by decide
          exact this m
      · rw [if_neg h3] at hm
        rcases generate_ai_responses_speakers sim encode gen fu chosen ais
            (hist ++ [⟨"You", pyStrip raw⟩]) (pyStrip raw) m hm with hin | hsp | hsp
        · rcases List.mem_append.1 hin with h | h
          · exact Or.inl h
          · have := List.mem_singleton.1 h
            subst this
            exact Or.inr (Or.inl rfl)
        · exact Or.inr (Or.inr (Or.inl hsp))
        · obtain ⟨c, hc, heq⟩ := List.mem_map.1 hsp
          rw [← heq]
          exact Or.inr (Or.inr (Or.inl (List.mem_map_of_mem _ (hch c hc))))

/-- C10: every entry appended to the shared transcript over a whole
session carries a bare speaker name — `System`, `You`, or a persona's
plain name: follow-up responses are recorded in the transcript under the
plain persona name even though the displayed response list suffixes them
with `" (follow-up)"`, so the persisted artifact never contains a
`"(follow-up)"`-marked speaker. -/
theorem transcript_plain_speakers {Emb : Type} [Inhabited Emb] (sim : Emb → Emb → ℚ)
    (encode : String → Emb) (gen : String → String → Except String String)
    (pm : Bool) (sid : String)
    (turns : List (String × Bool × List (String × AIPersona Emb)))
    (hch : ∀ t ∈ turns, ∀ c ∈ t.2.2, c ∈ setup_ai_personas pm) :
    ∀ m ∈ (save_conversation sid (run_session sim encode gen pm turns)).conversation_history,
      m.speaker ∈ ["System", "You", "Legal-AI", "Tech-AI", "Business-AI"] ∧
      pyContains m.speaker "(follow-up)" = false := by
  have hnames : (setup_ai_personas pm : List (String × AIPersona Emb)).map
      (fun kv => kv.2.name) = ["Legal-AI", "Tech-AI", "Business-AI"] := rfl
  have main : ∀ (ts : List (String × Bool × List (String × AIPersona Emb))) (h0 : List Message),
      (∀ t ∈ ts, ∀ c ∈ t.2.2, c ∈ setup_ai_personas pm) →
      (∀ m ∈ h0, m.speaker ∈ ["System", "You", "Legal-AI", "Tech-AI", "Business-AI"]) →
      ∀ m ∈ ts.foldl
          (fun history t =>
            (run_turn sim encode gen t.2.1 t.2.2 (setup_ai_personas pm) history t.1).2.1) h0,
        m.speaker ∈ ["System", "You", "Legal-AI", "Tech-AI", "Business-AI"] := by
    intro ts
    induction ts with
    | nil => intro h0 _ hinv m hm; exact hinv m hm
    | cons t ts ih =>
      intro h0 hts hinv m hm
      rw [List.foldl_cons] at hm
      refine ih _ (fun t' ht' => hts t' (List.mem_cons_of_mem _ ht')) ?_ m hm
      intro m' hm'
      rcases run_turn_speakers sim encode gen t.2.1 t.2.2 (setup_ai_personas pm) h0 t.1
          (hts t (List.mem_cons_self _ _)) m' hm' with h | h | h | h
      · exact hinv m' h
      · rw [h]; simp
      · rw [hnames] at h
        simp only [List.mem_cons, List.mem_singleton] at h ⊢
        tauto
      · simp only [List.mem_cons, List.mem_singleton] at h ⊢
        tauto
  intro m hm
  have hinv0 : ∀ m' ∈ initial_history,
      m'.speaker ∈ ["System", "You", "Legal-AI", "Tech-AI", "Business-AI"] := by decide
  have hmem := main turns initial_history hch hinv0 m hm
  refine ⟨hmem, ?_⟩
  have hnc : ∀ s ∈ ["System", "You", "Legal-AI", "Tech-AI", "Business-AI"],
      pyContains s "(follow-up)" = false := by decide
  exact hnc _ hmem

/-- C10 witness: the theorem applied to a concrete one-turn session. -/
theorem transcript_plain_speakers_witness :
    (⟨"You", "hello"⟩ : Message).speaker ∈ ["System", "You", "Legal-AI", "Tech-AI", "Business-AI"] ∧
    pyContains (⟨"You", "hello"⟩ : Message).speaker "(follow-up)" = false :=
  transcript_plain_speakers (fun _ _ => (1 : ℚ)) (fun _ => (() : Unit)) (fun _ _ => .ok "resp")
    true "session" [("hello", false, [])] (by simp) ⟨"You", "hello"⟩ (by decide)

end MultiAI
